import Mathlib

/-!
Shallow embedding of the secure-memory copy/transfer repository.

Bytes are modelled as `Nat` (a Go `byte` is a value `< 256`; none of the
verified properties depend on the bound).  A Go byte slice is a
`List Nat`; a sub-slice `buf[off:]` that aliases its backing array is
modelled by carrying the backing list together with the start offset, so
that writes through the sub-slice are writes into the backing list.
The Go `crypto/rand.Read` primitive is modelled by an arbitrary fill function
supplied as an explicit parameter (the properties proved hold for every
fill, hence for every random outcome).  A Go runtime panic
(out-of-range slicing, write through an unmapped pointer) is modelled by
`Option`: `none` is the panic/fault.  The `fmt.Printf` display calls in
the source are not modelled: the spec places printing/demo output out of
scope.
-/

/-- Model of the Go builtin `copy(dst, src)`: overwrites the first
`min |dst| |src|` elements of `dst` with those of `src`, leaving the
rest of `dst` unchanged, and returns the new contents of `dst`. -/
def goCopy (dst src : List Nat) : List Nat :=
  src.take (min dst.length src.length) ++ dst.drop (min dst.length src.length)

/-- Overwrite `mem[start .. start + vals.length)` with `vals`, leaving
every other position unchanged.  This is the effect, on the backing
list, of a Go full-slice write `copy(mem[start:start+len(vals)], vals)`
or `rand.Read(mem[start:start+n])` (with `vals` the bytes produced). -/
def writeBytes (mem : List Nat) (start : Nat) (vals : List Nat) : List Nat :=
  mem.take start ++ vals ++ mem.drop (start + vals.length)

/-- The function `clearMemorySecure` from `src/unnamed/part_000` lines 53-60: ten
passes of `rand.Read(mem[:length])` followed by a final pass writing
`0` to `mem[0 .. length)`.  `r p i` is the random byte produced by pass
`p` at position `i`.  Result: the new contents of `mem` together with
the number of overwrite passes performed (10 random + 1 zero = 11).
`none` models the Go panic when `length > len(mem)` (slicing
`mem[:length]` out of range). -/
def clearMemorySecure (mem : List Nat) (length : Nat) (r : Nat → Nat → Nat) :
    Option (List Nat × Nat) :=
  if length ≤ mem.length then
    let afterRandom := (List.range 10).foldl
      (fun m p => writeBytes m 0 ((List.range length).map (r p))) mem
    some (writeBytes afterRandom 0 (List.replicate length 0), 11)
  else
    none

/-- The `SecureMemoryManager` struct from `src/unnamed/part_000` lines
63-68.  The Go field `workingMemory` is the aliasing slice
`baseBuffer[offset:]`; it is represented here by `offset`, so
`workingMemory = baseBuffer.drop offset`. -/
structure SecureMemoryManager where
  baseBuffer : List Nat
  offset : Nat
  bufferSize : Nat
  dataLength : Nat
deriving DecidableEq, Repr

/-- Length of the working-memory slice `baseBuffer[offset:]`
(`len(sm.workingMemory)` in Go). -/
def SecureMemoryManager.winLen (sm : SecureMemoryManager) : Nat :=
  sm.baseBuffer.length - sm.offset

/-- The function `createMemoryAddressingWithRandomOffsetStruct` from
`src/unnamed/part_000` lines 108-127, returning the start offset of the
slice `buffer[offset:]` it produces.  `len` is `len(buffer)`; `b0, b1`
are the two random bytes read into `offsetBytes`.  Buffers shorter than
256 bytes are returned whole (offset 0); otherwise
`offset = (b0<<8 | b1) % maxOffset` with `maxOffset = len - 128`,
clamped to `[64, maxOffset - 64]`. -/
def createMemoryAddressingWithRandomOffsetStruct (len b0 b1 : Nat) : Nat :=
  if len < 256 then 0
  else
    let maxOffset := len - 128
    let offset := (b0 * 256 + b1) % maxOffset
    let offset := if offset < 64 then 64 else offset
    if offset > maxOffset - 64 then maxOffset - 64 else offset

/-- The function `NewSecureMemoryManager` from `src/unnamed/part_000` lines 70-89:
allocate a zeroed base buffer (`make([]byte, bufferSize)`), derive the
working memory `baseBuffer[offset:]`, and fill ONLY the working memory
with random bytes (`rand.Read(workingMemory)`), produced here by
`fill`.  `dataLength` starts at 0. -/
def NewSecureMemoryManager (bufferSize b0 b1 : Nat) (fill : Nat → Nat) :
    SecureMemoryManager :=
  let baseBuffer : List Nat := List.replicate bufferSize 0
  let offset := createMemoryAddressingWithRandomOffsetStruct bufferSize b0 b1
  let seeded := writeBytes baseBuffer offset
    ((List.range (bufferSize - offset)).map fill)
  { baseBuffer := seeded, offset := offset, bufferSize := bufferSize,
    dataLength := 0 }

/-- The method `SecureMemoryManager.CopyData` from `src/unnamed/part_000` lines
91-96: `copy(sm.workingMemory[:len(data)], data)` then
`sm.dataLength = len(data)`.  Slicing `workingMemory[:len(data)]`
panics (`none`) when `len(data)` exceeds the length of the working memory
(its capacity equals its length); otherwise the first `len(data)` bytes
of the working memory — i.e. `baseBuffer[offset .. offset+len(data))` —
are overwritten with `data`. -/
def SecureMemoryManager.CopyData (sm : SecureMemoryManager) (data : List Nat) :
    Option SecureMemoryManager :=
  if data.length ≤ sm.winLen then
    some { sm with
             baseBuffer := writeBytes sm.baseBuffer sm.offset data,
             dataLength := data.length }
  else
    none

/-- The method `SecureMemoryManager.ClearSecure` from `src/unnamed/part_000` lines
98-106: if `sm.dataLength > 0`, run
`clearMemorySecure(sm.workingMemory, sm.dataLength)` and reset
`dataLength` to 0; otherwise do nothing.  The result pairs the new
manager state with the number of overwrite passes performed (0 when the
guard is not taken). -/
def SecureMemoryManager.ClearSecure (sm : SecureMemoryManager)
    (r : Nat → Nat → Nat) : Option (SecureMemoryManager × Nat) :=
  if sm.dataLength > 0 then
    match clearMemorySecure (sm.baseBuffer.drop sm.offset) sm.dataLength r with
    | some (w, passes) =>
        some ({ sm with baseBuffer := sm.baseBuffer.take sm.offset ++ w,
                        dataLength := 0 }, passes)
    | none => none
  else
    some (sm, 0)

/-! ### The locked-buffer component (`src/escape_to_heap_problem/main.go`)

The raw mapping obtained from `syscall.Mmap` is modelled by the byte
list `mem` together with a `mapped` flag: `mapped = false` after
`Munmap`, and any read or write through the stored address while
`mapped = false` is a memory fault, modelled as `none`. -/

/-- The `lockedBuffer` struct from `src/escape_to_heap_problem/main.go`
lines 12-16 (`addr`, `size`, `locked`), extended with the model field
`mapped` tracking whether the mapping behind `addr` is still live. -/
structure lockedBuffer where
  mem : List Nat
  size : Nat
  locked : Bool
  mapped : Bool
deriving DecidableEq, Repr

/-- Events on the external mapping/pinning capability, in call order. -/
inductive SysEvent where
  | mmapped
  | munmapped
  | mlocked
deriving DecidableEq, Repr

/-- The function `newLockedBuffer` from `src/escape_to_heap_problem/main.go` lines
19-47.  `size` is a Go `int`; `syscall.Mmap` rejects `length <= 0` with
`EINVAL` (documented platform contract), and may also fail externally
(`mmapOk = false`); `syscall.Mlock` may fail externally
(`mlockOk = false`).  On mlock failure the code calls
`syscall.Munmap(data)` and returns `nil`.  The result pairs the Go
return value (`nil` = `none`) with the trace of successful
mapping/pinning events. -/
def newLockedBuffer (size : Int) (mmapOk mlockOk : Bool) :
    Option lockedBuffer × List SysEvent :=
  if size ≤ 0 then (none, [])
  else if !mmapOk then (none, [])
  else if mlockOk then
    (some { mem := List.replicate size.toNat 0, size := size.toNat,
            locked := true, mapped := true },
     [SysEvent.mmapped, SysEvent.mlocked])
  else
    (none, [SysEvent.mmapped, SysEvent.munmapped])

/-- The method `lockedBuffer.copyTo` from `src/escape_to_heap_problem/main.go`
lines 63-81: if `b.size != dest.size` the method returns at once —
no error value exists in its signature and no byte is touched.
Otherwise `copy(destSlice, srcSlice)` copies through the two raw
views; `none` models the fault of writing through a released mapping.
The result is the new state of `dest`. -/
def lockedBuffer.copyTo (b dest : lockedBuffer) : Option lockedBuffer :=
  if b.size ≠ dest.size then some dest
  else if b.mapped && dest.mapped then
    some { dest with mem := goCopy dest.mem b.mem }
  else none

/-- The method `lockedBuffer.clear` from `src/escape_to_heap_problem/main.go`
lines 100-110: writes `0` over all `b.size` bytes of the raw view built
from `b.addr` with length and capacity `b.size`.  Writing through a
released mapping faults (`none`). -/
def lockedBuffer.clear (b : lockedBuffer) : Option lockedBuffer :=
  if b.mapped then some { b with mem := List.replicate b.size 0 }
  else none

/-- The method `lockedBuffer.close` from `src/escape_to_heap_problem/main.go`
lines 113-131: if `b.locked`, `syscall.Munlock(slice)` (its error
return is ignored and it does not fault, even on an unmapped range);
then `b.clear()` — a fault if the mapping was already released — then
`syscall.Munmap(data)`.  Note the code never resets `b.locked`. -/
def lockedBuffer.close (b : lockedBuffer) : Option lockedBuffer :=
  match b.clear with
  | some b1 => some { b1 with mapped := false }
  | none => none

/-- Modelled from the spec (section 4.1, `copy`), for comparison with
the `lockedBuffer.copyTo` of the code: a byte-for-byte copy that fails
with `SizeMismatchError` if lengths differ.  `none` here is the
`SizeMismatchError` the spec requires. -/
def copyToPerSpec (b dest : lockedBuffer) : Option lockedBuffer :=
  if b.size ≠ dest.size then none
  else some { dest with mem := b.mem }

/-! ### Helper lemmas about `writeBytes` and `clearMemorySecure` -/

theorem writeBytes_length (mem : List Nat) (start : Nat) (vals : List Nat)
    (h : start + vals.length ≤ mem.length) :
    (writeBytes mem start vals).length = mem.length := by
  simp only [writeBytes, List.length_append, List.length_take, List.length_drop]
  omega

theorem writeBytes_getElem?_left (mem : List Nat) (start : Nat)
    (vals : List Nat) (i : Nat) (hi : i < start) (hs : start ≤ mem.length) :
    (writeBytes mem start vals)[i]? = mem[i]? := by
  have hlen : (mem.take start).length = start := by
    simp [List.length_take, Nat.min_eq_left hs]
  unfold writeBytes
  rw [List.getElem?_append_left (by simp only [List.length_append, hlen]; omega),
    List.getElem?_append_left (by rw [hlen]; exact hi),
    List.getElem?_take_of_lt hi]

theorem writeBytes_getElem?_mid (mem : List Nat) (start : Nat)
    (vals : List Nat) (i : Nat) (h1 : start ≤ i) (h2 : i - start < vals.length)
    (hs : start ≤ mem.length) :
    (writeBytes mem start vals)[i]? = vals[i - start]? := by
  have hlen : (mem.take start).length = start := by
    simp [List.length_take, Nat.min_eq_left hs]
  unfold writeBytes
  rw [List.getElem?_append_left (by simp only [List.length_append, hlen]; omega),
    List.getElem?_append_right (by rw [hlen]; exact h1), hlen]

theorem writeBytes_getElem?_right (mem : List Nat) (start : Nat)
    (vals : List Nat) (i : Nat) (h : start + vals.length ≤ i)
    (hs : start ≤ mem.length) :
    (writeBytes mem start vals)[i]? = mem[i]? := by
  have hlen : (mem.take start).length = start := by
    simp [List.length_take, Nat.min_eq_left hs]
  unfold writeBytes
  rw [List.getElem?_append_right (by simp only [List.length_append, hlen]; omega),
    List.getElem?_drop]
  congr 1
  simp only [List.length_append, hlen]
  omega

/-- Any write at position 0 leaves positions at or past the written
length unchanged. -/
theorem writeBytes_zero_getElem?_ge (mem : List Nat) (vals : List Nat)
    (i : Nat) (h : vals.length ≤ i) :
    (writeBytes mem 0 vals)[i]? = mem[i]? :=
  writeBytes_getElem?_right mem 0 vals i (by omega) (Nat.zero_le _)

theorem writeBytes_zero_length (mem : List Nat) (vals : List Nat)
    (h : vals.length ≤ mem.length) :
    (writeBytes mem 0 vals).length = mem.length :=
  writeBytes_length mem 0 vals (by omega)

/-- The ten random passes of `clearMemorySecure` touch only
`mem[0 .. length)`: positions at or past `length` are unchanged, and
the length of the list is preserved. -/
theorem foldl_randomPasses_spec (len : Nat) (r : Nat → Nat → Nat)
    (ps : List Nat) (mem : List Nat) (hlen : len ≤ mem.length) :
    (ps.foldl (fun m p => writeBytes m 0 ((List.range len).map (r p)))
        mem).length = mem.length ∧
    ∀ i, len ≤ i →
      (ps.foldl (fun m p => writeBytes m 0 ((List.range len).map (r p)))
          mem)[i]? = mem[i]? := by
  induction ps generalizing mem with
  | nil => exact ⟨rfl, fun i _ => rfl⟩
  | cons p ps ih =>
    have hv : ((List.range len).map (r p)).length = len := by simp
    have hstep : (writeBytes mem 0 ((List.range len).map (r p))).length
        = mem.length := writeBytes_zero_length _ _ (by rw [hv]; exact hlen)
    obtain ⟨ihlen, ihget⟩ :=
      ih (writeBytes mem 0 ((List.range len).map (r p)))
        (by rw [hstep]; exact hlen)
    refine ⟨by rw [List.foldl_cons, ihlen, hstep], fun i hi => ?_⟩
    rw [List.foldl_cons, ihget i hi,
      writeBytes_zero_getElem?_ge _ _ i (by rw [hv]; exact hi)]

/-- Full characterisation of `clearMemorySecure` when the length is in
range: it succeeds, reports 11 overwrite passes, preserves the length
of the list, zeroes `mem[0 .. length)` and leaves `mem[length ..)`
unchanged. -/
theorem clearMemorySecure_spec (mem : List Nat) (len : Nat)
    (r : Nat → Nat → Nat) (h : len ≤ mem.length) :
    ∃ w, clearMemorySecure mem len r = some (w, 11) ∧
      w.length = mem.length ∧
      (∀ i, i < len → w[i]? = some 0) ∧
      (∀ i, len ≤ i → w[i]? = mem[i]?) := by
  obtain ⟨hflen, hfget⟩ := foldl_randomPasses_spec len r (List.range 10) mem h
  set afterRandom :=
    (List.range 10).foldl
      (fun m p => writeBytes m 0 ((List.range len).map (r p))) mem with hAR
  refine ⟨writeBytes afterRandom 0 (List.replicate len 0), ?_, ?_, ?_, ?_⟩
  · simp only [clearMemorySecure, if_pos h]
  · rw [writeBytes_zero_length _ _ (by simp [hflen, h]), hflen]
  · intro i hi
    rw [writeBytes_getElem?_mid _ _ _ _ (Nat.zero_le _) (by simpa using hi)
      (Nat.zero_le _)]
    simp [hi]
  · intro i hi
    rw [writeBytes_zero_getElem?_ge _ _ i (by simpa using hi), hfget i hi]

/-- Bounds of the derived offset: buffers shorter than 256 bytes get
offset 0 (whole buffer used), larger ones an offset clamped to
`[64, (len - 128) - 64]`. -/
theorem createOffsetStruct_bounds (len b0 b1 : Nat) :
    (len < 256 → createMemoryAddressingWithRandomOffsetStruct len b0 b1 = 0) ∧
    (256 ≤ len →
      64 ≤ createMemoryAddressingWithRandomOffsetStruct len b0 b1 ∧
      createMemoryAddressingWithRandomOffsetStruct len b0 b1 ≤
        (len - 128) - 64) := by
  unfold createMemoryAddressingWithRandomOffsetStruct
  constructor
  · intro h
    rw [if_pos h]
  · intro h
    rw [if_neg (by omega)]
    have hmod : (b0 * 256 + b1) % (len - 128) < len - 128 :=
      Nat.mod_lt _ (by omega)
    generalize (b0 * 256 + b1) % (len - 128) = m at hmod
    dsimp only
    split <;> split <;> omega

/-- The derived offset never exceeds the buffer length. -/
theorem createOffsetStruct_le (len b0 b1 : Nat) :
    createMemoryAddressingWithRandomOffsetStruct len b0 b1 ≤ len := by
  rcases Nat.lt_or_ge len 256 with h | h
  · rw [(createOffsetStruct_bounds len b0 b1).1 h]
    exact Nat.zero_le _
  · have := ((createOffsetStruct_bounds len b0 b1).2 h).2
    omega

/-- A Go `copy` between views of equal length replaces the contents of
the destination with those of the source. -/
theorem goCopy_eq_src (dst src : List Nat) (h : dst.length = src.length) :
    goCopy dst src = src := by
  simp [goCopy, h]

theorem copyTo_of_ne (b dest : lockedBuffer) (h : b.size ≠ dest.size) :
    b.copyTo dest = some dest := by
  unfold lockedBuffer.copyTo
  rw [if_pos h]

theorem copyTo_of_eq (b dest : lockedBuffer) (h : b.size = dest.size)
    (hb : b.mapped = true) (hd : dest.mapped = true)
    (hbm : b.mem.length = b.size) (hdm : dest.mem.length = dest.size) :
    b.copyTo dest = some { dest with mem := b.mem } := by
  unfold lockedBuffer.copyTo
  rw [if_neg (by simp [h]), if_pos (by simp [hb, hd]),
    goCopy_eq_src dest.mem b.mem (by omega)]

theorem close_of_mapped (b : lockedBuffer) (h : b.mapped = true) :
    b.close = some { mem := List.replicate b.size 0, size := b.size,
                     locked := b.locked, mapped := false } := by
  simp [lockedBuffer.close, lockedBuffer.clear, h]

theorem close_of_unmapped (b : lockedBuffer) (h : b.mapped = false) :
    b.close = none := by
  simp [lockedBuffer.close, lockedBuffer.clear, h]

/-- Net number of live mappings recorded by a syscall trace. -/
def liveMappings (tr : List SysEvent) : Int :=
  (tr.count SysEvent.mmapped : Int) - (tr.count SysEvent.munmapped : Int)

/-! ### The claims -/

/-- The `baseBuffer` built by `NewSecureMemoryManager`, with its `let`
bindings unfolded. -/
theorem NewSecureMemoryManager_baseBuffer (bufferSize b0 b1 : Nat)
    (fill : Nat → Nat) :
    (NewSecureMemoryManager bufferSize b0 b1 fill).baseBuffer =
      writeBytes (List.replicate bufferSize 0)
        (createMemoryAddressingWithRandomOffsetStruct bufferSize b0 b1)
        ((List.range (bufferSize -
            createMemoryAddressingWithRandomOffsetStruct bufferSize b0 b1)).map
          fill) := rfl

theorem NewSecureMemoryManager_offset (bufferSize b0 b1 : Nat)
    (fill : Nat → Nat) :
    (NewSecureMemoryManager bufferSize b0 b1 fill).offset =
      createMemoryAddressingWithRandomOffsetStruct bufferSize b0 b1 := rfl

/-- C4: for every capacity, the window-derivation routine returns the
whole region (offset 0) for buffers shorter than 256 bytes, and
otherwise an offset clamped to at least 64 and at most
`maxOffset - 64` where `maxOffset = len - 128`, leaving slack on both
sides of the derived start where feasible. -/
theorem c4_derive_window_offset_bounds (len b0 b1 : Nat) :
    (len < 256 → createMemoryAddressingWithRandomOffsetStruct len b0 b1 = 0) ∧
    (256 ≤ len →
      64 ≤ createMemoryAddressingWithRandomOffsetStruct len b0 b1 ∧
      createMemoryAddressingWithRandomOffsetStruct len b0 b1 ≤
        (len - 128) - 64) :=
  createOffsetStruct_bounds len b0 b1

theorem c4_derive_window_offset_bounds_witness :
    createMemoryAddressingWithRandomOffsetStruct 100 3 7 = 0 ∧
    64 ≤ createMemoryAddressingWithRandomOffsetStruct 2048 3 7 ∧
    createMemoryAddressingWithRandomOffsetStruct 2048 3 7 ≤ (2048 - 128) - 64 :=
  ⟨(c4_derive_window_offset_bounds 100 3 7).1 (by decide),
   (c4_derive_window_offset_bounds 2048 3 7).2 (by decide)⟩

/-- C5: `CopyData` fails exactly when the length of the data exceeds the
working-memory (window) length, and succeeds otherwise.  The failure in
the Go source is the out-of-range slice `sm.workingMemory[:len(data)]`,
modelled as `none`. -/
theorem c5_write_capacity_check (sm : SecureMemoryManager) (data : List Nat) :
    sm.CopyData data = none ↔ sm.winLen < data.length := by
  unfold SecureMemoryManager.CopyData
  split <;> rename_i h
  · simp only [reduceCtorEq, false_iff]
    omega
  · simp only [true_iff]
    omega

theorem c5_write_capacity_check_witness :
    SecureMemoryManager.CopyData
      { baseBuffer := [1, 2, 3, 4, 5, 6], offset := 2, bufferSize := 6,
        dataLength := 0 } [7, 7, 7, 7, 7] = none :=
  (c5_write_capacity_check _ _).mpr (by decide)

/-- C7 counterexample: the claim says `copyTo` fails with
`SizeMismatchError` when the lengths differ.  At this concrete
size-mismatched input the `copyTo` of the code returns normally (its Go
signature has no error result and the guard merely returns), leaving
the destination unchanged, whereas the spec-modelled copy reports the
required error — so the claim, as stated, is false. -/
theorem c7_copy_mismatch_counterexample :
    ({ mem := [1], size := 1, locked := true, mapped := true } :
        lockedBuffer).size ≠
      ({ mem := [2, 3], size := 2, locked := true, mapped := true } :
        lockedBuffer).size ∧
    lockedBuffer.copyTo
        { mem := [1], size := 1, locked := true, mapped := true }
        { mem := [2, 3], size := 2, locked := true, mapped := true } =
      some { mem := [2, 3], size := 2, locked := true, mapped := true } ∧
    copyToPerSpec
        { mem := [1], size := 1, locked := true, mapped := true }
        { mem := [2, 3], size := 2, locked := true, mapped := true } =
      none := by
  decide

/-- C7 amended: `copyTo` performs a byte-for-byte copy of the source
into the destination when the sizes are equal (never truncating), but
when the sizes differ it returns silently with the destination
unchanged and with no error signalled — the Go method has no error
result, so no `SizeMismatchError` is ever reported. -/
theorem c7_copy_behavior_amended (b dest : lockedBuffer)
    (hb : b.mapped = true) (hd : dest.mapped = true)
    (hbm : b.mem.length = b.size) (hdm : dest.mem.length = dest.size) :
    (b.size = dest.size → b.copyTo dest = some { dest with mem := b.mem }) ∧
    (b.size ≠ dest.size → b.copyTo dest = some dest) :=
  ⟨fun h => copyTo_of_eq b dest h hb hd hbm hdm,
   fun h => copyTo_of_ne b dest h⟩

theorem c7_copy_behavior_amended_witness :
    lockedBuffer.copyTo
        { mem := [1, 2], size := 2, locked := true, mapped := true }
        { mem := [3, 4], size := 2, locked := true, mapped := true } =
      some { mem := [1, 2], size := 2, locked := true, mapped := true } :=
  (c7_copy_behavior_amended
      { mem := [1, 2], size := 2, locked := true, mapped := true }
      { mem := [3, 4], size := 2, locked := true, mapped := true }
      (by decide) (by decide) (by decide) (by decide)).1 (by decide)

/-- C8: allocation fails (returns `nil`) exactly when the requested
size is non-positive, the mapping fails, or pinning fails; and on every
failure path the syscall trace shows no live mapping left behind — in
particular, on pinning failure the mapping is unmapped before the
error return. -/
theorem c8_allocate_failure_no_leak (size : Int) (mmapOk mlockOk : Bool) :
    ((newLockedBuffer size mmapOk mlockOk).1 = none ↔
      size ≤ 0 ∨ mmapOk = false ∨ mlockOk = false) ∧
    ((newLockedBuffer size mmapOk mlockOk).1 = none →
      liveMappings (newLockedBuffer size mmapOk mlockOk).2 = 0) := by
  unfold newLockedBuffer
  rcases mmapOk <;> rcases mlockOk <;> split <;>
    simp_all [liveMappings, List.count_cons]

theorem c8_allocate_failure_no_leak_witness :
    (newLockedBuffer 4 true false).1 = none ∧
    liveMappings (newLockedBuffer 4 true false).2 = 0 :=
  ⟨(c8_allocate_failure_no_leak 4 true false).1.mpr (by decide),
   (c8_allocate_failure_no_leak 4 true false).2
     ((c8_allocate_failure_no_leak 4 true false).1.mpr (by decide))⟩

/-- C9 counterexample: the claim says `close` is idempotent (a second
call must not fault and leaves the state as after one call).  On this
concrete buffer the first `close` zeroes and unmaps, but the second
`close` faults (`none`): `close` never records the release (`locked`
is not even reset), and its unconditional `clear` writes through the
already-unmapped region. -/
theorem c9_double_close_counterexample :
    lockedBuffer.close
        { mem := [1, 2, 3, 4], size := 4, locked := true, mapped := true } =
      some { mem := [0, 0, 0, 0], size := 4, locked := true, mapped := false } ∧
    lockedBuffer.close
        { mem := [0, 0, 0, 0], size := 4, locked := true, mapped := false } =
      none := by
  decide

/-- C9 amended: `close` on a live buffer zeroes every byte of the
region before unmapping it (the resulting contents are all zero and the
mapping is released); but `close` is not idempotent — a second call on
the released buffer faults, because the code keeps no record of the
release and unconditionally writes zeros through the stale address. -/
theorem c9_close_zeroes_not_idempotent (b : lockedBuffer)
    (h : b.mapped = true) :
    b.close = some { mem := List.replicate b.size 0, size := b.size,
                     locked := b.locked, mapped := false } ∧
    lockedBuffer.close
        { mem := List.replicate b.size 0, size := b.size,
          locked := b.locked, mapped := false } = none :=
  ⟨close_of_mapped b h, close_of_unmapped _ rfl⟩

theorem c9_close_zeroes_not_idempotent_witness :
    lockedBuffer.close
        { mem := [5, 6], size := 2, locked := true, mapped := true } =
      some { mem := List.replicate 2 0, size := 2, locked := true,
             mapped := false } ∧
    lockedBuffer.close
        { mem := List.replicate 2 0, size := 2, locked := true,
          mapped := false } = none :=
  c9_close_zeroes_not_idempotent
    { mem := [5, 6], size := 2, locked := true, mapped := true } (by decide)

/-- C10 (implicit): when `copyTo` is called with source and destination
of different sizes it returns immediately, leaving the destination
buffer byte-for-byte unchanged. -/
theorem c10_copy_mismatch_leaves_dest_unchanged (b dest : lockedBuffer)
    (h : b.size ≠ dest.size) : b.copyTo dest = some dest :=
  copyTo_of_ne b dest h

theorem c10_copy_mismatch_leaves_dest_unchanged_witness :
    lockedBuffer.copyTo
        { mem := [9], size := 1, locked := true, mapped := true }
        { mem := [4, 5, 6], size := 3, locked := false, mapped := true } =
      some { mem := [4, 5, 6], size := 3, locked := false, mapped := true } :=
  c10_copy_mismatch_leaves_dest_unchanged
    { mem := [9], size := 1, locked := true, mapped := true }
    { mem := [4, 5, 6], size := 3, locked := false, mapped := true }
    (by decide)

/-- C6: for data fitting in the window, `CopyData` succeeds, reading
back the first `len(data)` bytes of the working memory returns exactly
the data written, and `dataLength` records `len(data)` as the bound for
the subsequent clear. -/
theorem c6_write_roundtrip (sm : SecureMemoryManager) (data : List Nat)
    (hoff : sm.offset ≤ sm.baseBuffer.length)
    (hlen : data.length ≤ sm.winLen) :
    ∃ sm1, sm.CopyData data = some sm1 ∧
      (sm1.baseBuffer.drop sm.offset).take data.length = data ∧
      sm1.dataLength = data.length := by
  refine ⟨{ sm with
      baseBuffer := writeBytes sm.baseBuffer sm.offset data,
      dataLength := data.length }, ?_, ?_, rfl⟩
  · unfold SecureMemoryManager.CopyData
    rw [if_pos hlen]
  · have htake : (sm.baseBuffer.take sm.offset).length = sm.offset := by
      rw [List.length_take, Nat.min_eq_left hoff]
    show ((writeBytes sm.baseBuffer sm.offset data).drop sm.offset).take
        data.length = data
    unfold writeBytes
    rw [List.append_assoc, List.drop_left' htake, List.take_left]

theorem c6_write_roundtrip_witness :
    ∃ sm1, SecureMemoryManager.CopyData
        { baseBuffer := [1, 2, 3, 4, 5, 6], offset := 2, bufferSize := 6,
          dataLength := 0 } [9, 8] = some sm1 ∧
      (sm1.baseBuffer.drop 2).take 2 = [9, 8] ∧
      sm1.dataLength = 2 :=
  c6_write_roundtrip
    { baseBuffer := [1, 2, 3, 4, 5, 6], offset := 2, bufferSize := 6,
      dataLength := 0 } [9, 8] (by decide) (by decide)

/-- C1: after a write of positive length, the first `ClearSecure`
performs the overwrite passes (11 of them: ten random fills and one
zero fill over the written range) and resets `dataLength` to 0; a
second `ClearSecure` with no intervening write is a no-op — it
succeeds, performs 0 passes, and returns the very same state, every
byte of the backing buffer unchanged. -/
theorem c1_clear_once_then_noop (sm : SecureMemoryManager) (data : List Nat)
    (r r2 : Nat → Nat → Nat) (hoff : sm.offset ≤ sm.baseBuffer.length)
    (hpos : 0 < data.length) (hlen : data.length ≤ sm.winLen) :
    ∃ sm1 sm2, sm.CopyData data = some sm1 ∧
      sm1.ClearSecure r = some (sm2, 11) ∧
      sm2.dataLength = 0 ∧
      sm2.ClearSecure r2 = some (sm2, 0) := by
  have hwin : data.length ≤ sm.baseBuffer.length - sm.offset := hlen
  have hb1len : (writeBytes sm.baseBuffer sm.offset data).length
      = sm.baseBuffer.length := writeBytes_length _ _ _ (by omega)
  obtain ⟨w, hw, hwlen, hwzero, hwrest⟩ :=
    clearMemorySecure_spec
      ((writeBytes sm.baseBuffer sm.offset data).drop sm.offset) data.length r
      (by rw [List.length_drop, hb1len]; omega)
  refine ⟨{ sm with
      baseBuffer := writeBytes sm.baseBuffer sm.offset data,
      dataLength := data.length },
    { sm with
      baseBuffer :=
        (writeBytes sm.baseBuffer sm.offset data).take sm.offset ++ w,
      dataLength := 0 }, ?_, ?_, rfl, ?_⟩
  · unfold SecureMemoryManager.CopyData
    rw [if_pos hlen]
  · unfold SecureMemoryManager.ClearSecure
    dsimp only
    rw [if_pos hpos, hw]
  · unfold SecureMemoryManager.ClearSecure
    dsimp only
    rw [if_neg (by omega)]

theorem c1_clear_once_then_noop_witness :
    ∃ sm1 sm2, SecureMemoryManager.CopyData
        { baseBuffer := [1, 2, 3, 4, 5, 6], offset := 2, bufferSize := 6,
          dataLength := 0 } [9] = some sm1 ∧
      sm1.ClearSecure (fun _ _ => 3) = some (sm2, 11) ∧
      sm2.dataLength = 0 ∧
      sm2.ClearSecure (fun _ _ => 4) = some (sm2, 0) :=
  c1_clear_once_then_noop
    { baseBuffer := [1, 2, 3, 4, 5, 6], offset := 2, bufferSize := 6,
      dataLength := 0 } [9] (fun _ _ => 3) (fun _ _ => 4)
    (by decide) (by decide) (by decide)

/-- C2: for every data length `n ≤` window length (including 0 and the
full window), writing then clearing leaves every byte of the
previously-written range `[offset, offset + n)` equal to zero, and the
clear touches exactly the first `n` bytes of the window — bytes of the
window at or past `n` keep the value they had after the write. -/
theorem c2_clear_zeroes_written_range (sm : SecureMemoryManager)
    (data : List Nat) (r : Nat → Nat → Nat)
    (hoff : sm.offset ≤ sm.baseBuffer.length)
    (hlen : data.length ≤ sm.winLen) :
    ∃ sm1 sm2 passes, sm.CopyData data = some sm1 ∧
      sm1.ClearSecure r = some (sm2, passes) ∧
      (∀ i, i < data.length → sm2.baseBuffer[sm.offset + i]? = some 0) ∧
      (∀ i, data.length ≤ i →
        sm2.baseBuffer[sm.offset + i]? = sm1.baseBuffer[sm.offset + i]?) := by
  have hwin : data.length ≤ sm.baseBuffer.length - sm.offset := hlen
  have hb1len : (writeBytes sm.baseBuffer sm.offset data).length
      = sm.baseBuffer.length := writeBytes_length _ _ _ (by omega)
  have hcd : sm.CopyData data = some { sm with
      baseBuffer := writeBytes sm.baseBuffer sm.offset data,
      dataLength := data.length } := by
    unfold SecureMemoryManager.CopyData
    rw [if_pos hlen]
  rcases Nat.eq_zero_or_pos data.length with hz | hp
  · refine ⟨_, _, 0, hcd, ?_, fun i hi => absurd hi (by omega),
      fun i _ => rfl⟩
    unfold SecureMemoryManager.ClearSecure
    dsimp only
    rw [if_neg (by omega)]
  · obtain ⟨w, hw, hwlen, hwzero, hwrest⟩ :=
      clearMemorySecure_spec
        ((writeBytes sm.baseBuffer sm.offset data).drop sm.offset)
        data.length r (by rw [List.length_drop, hb1len]; omega)
    have htake : ((writeBytes sm.baseBuffer sm.offset data).take
        sm.offset).length = sm.offset := by
      rw [List.length_take, hb1len, Nat.min_eq_left hoff]
    refine ⟨_, { sm with
        baseBuffer :=
          (writeBytes sm.baseBuffer sm.offset data).take sm.offset ++ w,
        dataLength := 0 }, 11, hcd, ?_, ?_, ?_⟩
    · unfold SecureMemoryManager.ClearSecure
      dsimp only
      rw [if_pos hp, hw]
    · intro i hi
      dsimp only
      rw [List.getElem?_append_right (by omega), htake,
        Nat.add_sub_cancel_left]
      exact hwzero i hi
    · intro i hi
      dsimp only
      rw [List.getElem?_append_right (by omega), htake,
        Nat.add_sub_cancel_left, hwrest i hi, List.getElem?_drop]

/-- C3: isolation.  The seed step of `NewSecureMemoryManager` (the
random fill of the working memory), `CopyData`, and `ClearSecure`
never modify any byte of the backing buffer strictly outside
`[offset, offset + winLen)` of the active window: outside bytes keep
the allocator-provided zero (for the seed) resp. their previous value
(for write and clear). -/
theorem c3_isolation_outside_window (bufferSize b0 b1 : Nat)
    (fill : Nat → Nat) (sm : SecureMemoryManager) (data : List Nat)
    (r : Nat → Nat → Nat) (hoff : sm.offset ≤ sm.baseBuffer.length) :
    (∀ i, i < (NewSecureMemoryManager bufferSize b0 b1 fill).offset ∨
          (NewSecureMemoryManager bufferSize b0 b1 fill).offset +
            (NewSecureMemoryManager bufferSize b0 b1 fill).winLen ≤ i →
        (NewSecureMemoryManager bufferSize b0 b1 fill).baseBuffer[i]? =
          (List.replicate bufferSize (0 : Nat))[i]?) ∧
    (∀ sm1, sm.CopyData data = some sm1 →
        ∀ i, i < sm.offset ∨ sm.offset + sm.winLen ≤ i →
          sm1.baseBuffer[i]? = sm.baseBuffer[i]?) ∧
    (∀ sm1 passes, sm.ClearSecure r = some (sm1, passes) →
        ∀ i, i < sm.offset ∨ sm.offset + sm.winLen ≤ i →
          sm1.baseBuffer[i]? = sm.baseBuffer[i]?) := by
  refine ⟨?_, ?_, ?_⟩
  · -- the seed of `NewSecureMemoryManager`
    have hle := createOffsetStruct_le bufferSize b0 b1
    have hvals : ((List.range (bufferSize -
        createMemoryAddressingWithRandomOffsetStruct bufferSize b0 b1)).map
          fill).length =
        bufferSize -
          createMemoryAddressingWithRandomOffsetStruct bufferSize b0 b1 := by
      simp
    have hblen : (NewSecureMemoryManager bufferSize b0 b1 fill).baseBuffer.length
        = bufferSize := by
      rw [NewSecureMemoryManager_baseBuffer,
        writeBytes_length _ _ _ (by rw [hvals]; simp; omega)]
      simp
    intro i hi
    rw [NewSecureMemoryManager_offset] at hi
    rcases hi with hi | hi
    · rw [NewSecureMemoryManager_baseBuffer,
        writeBytes_getElem?_left _ _ _ i hi (by simpa using hle)]
    · have hwl : (NewSecureMemoryManager bufferSize b0 b1 fill).winLen =
          bufferSize -
            createMemoryAddressingWithRandomOffsetStruct bufferSize b0 b1 := by
        unfold SecureMemoryManager.winLen
        rw [hblen, NewSecureMemoryManager_offset]
      rw [hwl] at hi
      rw [List.getElem?_eq_none (by rw [hblen]; omega),
        List.getElem?_eq_none (by simp; omega)]
  · -- `CopyData`
    intro sm1 hcd i hi
    have hwin : sm.winLen = sm.baseBuffer.length - sm.offset := rfl
    unfold SecureMemoryManager.CopyData at hcd
    split at hcd
    · rename_i hguard
      obtain rfl := Option.some.inj hcd
      dsimp only
      rcases hi with hi | hi
      · exact writeBytes_getElem?_left _ _ _ i hi hoff
      · have hblen : (writeBytes sm.baseBuffer sm.offset data).length
            = sm.baseBuffer.length := writeBytes_length _ _ _ (by omega)
        rw [List.getElem?_eq_none (by omega), List.getElem?_eq_none (by omega)]
    · exact absurd hcd (by simp)
  · -- `ClearSecure`
    intro sm1 passes hcl i hi
    have hwin : sm.winLen = sm.baseBuffer.length - sm.offset := rfl
    unfold SecureMemoryManager.ClearSecure at hcl
    split at hcl
    · rename_i hpos
      rcases hmem : clearMemorySecure (sm.baseBuffer.drop sm.offset)
          sm.dataLength r with _ | ⟨w, p⟩
      · rw [hmem] at hcl
        exact absurd hcl (by simp)
      · rw [hmem] at hcl
        have hguard : sm.dataLength ≤ (sm.baseBuffer.drop sm.offset).length := by
          by_contra hg
          unfold clearMemorySecure at hmem
          rw [if_neg hg] at hmem
          exact absurd hmem (by simp)
        obtain ⟨w2, hw2, hw2len, hw2zero, hw2rest⟩ :=
          clearMemorySecure_spec (sm.baseBuffer.drop sm.offset)
            sm.dataLength r hguard
        rw [hmem] at hw2
        simp only [Option.some.injEq, Prod.mk.injEq] at hw2
        obtain ⟨rfl, rfl⟩ := hw2
        simp only [Option.some.injEq, Prod.mk.injEq] at hcl
        obtain ⟨rfl, rfl⟩ := hcl
        dsimp only
        have htake : (sm.baseBuffer.take sm.offset).length = sm.offset := by
          rw [List.length_take, Nat.min_eq_left hoff]
        rcases hi with hi | hi
        · rw [List.getElem?_append_left (by omega),
            List.getElem?_take_of_lt hi]
        · rw [List.getElem?_eq_none, List.getElem?_eq_none]
          · omega
          · rw [List.length_append, htake, hw2len, List.length_drop]
            omega
    · simp only [Option.some.injEq, Prod.mk.injEq] at hcl
      obtain ⟨rfl, rfl⟩ := hcl
      rfl

theorem c3_isolation_outside_window_witness :
    (∀ i, i < (NewSecureMemoryManager 300 0 0 (fun _ => 7)).offset ∨
          (NewSecureMemoryManager 300 0 0 (fun _ => 7)).offset +
            (NewSecureMemoryManager 300 0 0 (fun _ => 7)).winLen ≤ i →
        (NewSecureMemoryManager 300 0 0 (fun _ => 7)).baseBuffer[i]? =
          (List.replicate 300 (0 : Nat))[i]?) ∧
    (∀ sm1, SecureMemoryManager.CopyData
          { baseBuffer := [1, 2, 3, 4, 5, 6], offset := 2, bufferSize := 6,
            dataLength := 0 } [9, 8] = some sm1 →
        ∀ i, i < 2 ∨ (2 : Nat) + 4 ≤ i →
          sm1.baseBuffer[i]? =
            ([1, 2, 3, 4, 5, 6] : List Nat)[i]?) ∧
    (∀ sm1 passes, SecureMemoryManager.ClearSecure
          { baseBuffer := [1, 2, 3, 4, 5, 6], offset := 2, bufferSize := 6,
            dataLength := 0 } (fun _ _ => 3) = some (sm1, passes) →
        ∀ i, i < 2 ∨ (2 : Nat) + 4 ≤ i →
          sm1.baseBuffer[i]? =
            ([1, 2, 3, 4, 5, 6] : List Nat)[i]?) :=
  c3_isolation_outside_window 300 0 0 (fun _ => 7)
    { baseBuffer := [1, 2, 3, 4, 5, 6], offset := 2, bufferSize := 6,
      dataLength := 0 } [9, 8] (fun _ _ => 3) (by decide)

theorem c2_clear_zeroes_written_range_witness :
    ∃ sm1 sm2 passes, SecureMemoryManager.CopyData
        { baseBuffer := [1, 2, 3, 4, 5, 6], offset := 2, bufferSize := 6,
          dataLength := 0 } [9, 8] = some sm1 ∧
      sm1.ClearSecure (fun _ _ => 3) = some (sm2, passes) ∧
      (∀ i, i < 2 → sm2.baseBuffer[2 + i]? = some 0) ∧
      (∀ i, 2 ≤ i → sm2.baseBuffer[2 + i]? = sm1.baseBuffer[2 + i]?) :=
  c2_clear_zeroes_written_range
    { baseBuffer := [1, 2, 3, 4, 5, 6], offset := 2, bufferSize := 6,
      dataLength := 0 } [9, 8] (fun _ _ => 3) (by decide) (by decide)
